import Mathlib

/-!
Shallow embedding of the binahbackend Topic Service (src/index.js).

The service is a thin HTTP layer over one SQL table `topics`.  We model:

* JS string primitives used by the handlers: `String.prototype.trim`,
  `String.prototype.split(',')`, `Array.prototype.join(', ')`, the global
  regex replacement `content.replace(/<[^>]*>/g, '')`, `substring(0, 200)`,
  and the JS `||` defaulting idiom on possibly-absent strings;
* the table as a list of rows (`Row`), the connection pool as
  `Option (List Row)` (`none` = no `DB_HOST`, so no pool);
* each request handler as a pure function from the pool value and the
  request data to a response, with database effects returned as the new
  list of rows.

Timestamps are abstracted as `Nat` ordering keys; the `toISOString`
calendar rendering of `created_date` is abstracted as the identity on that
key.  JS `substring` counts UTF-16 units while we count characters; the
two agree on all code points below 0x10000.
-/

namespace Binah

/-- Space character (code point 32). -/
def spaceC : Char := Char.ofNat 32

/-- Whitespace recognised by the JS `trim` method: space, tab, LF, VT, FF,
CR, NBSP and the BOM (the space separators beyond NBSP are omitted; no
handler string involves them). -/
def isJsWS (c : Char) : Bool :=
  c == spaceC || c == Char.ofNat 9 || c == Char.ofNat 10 || c == Char.ofNat 11 ||
  c == Char.ofNat 12 || c == Char.ofNat 13 || c == Char.ofNat 160 || c == Char.ofNat 0xFEFF

/-- Drop JS whitespace from both ends of a character list. -/
def jsTrimL (l : List Char) : List Char :=
  ((l.dropWhile isJsWS).reverse.dropWhile isJsWS).reverse

/-- JS `s.trim()`. -/
def jsTrim (s : String) : String :=
  String.mk (jsTrimL s.data)

/-- JS `s.split(',')` on the underlying character list: cut at every comma;
`n` commas yield `n + 1` segments (possibly empty). -/
def splitOnCommaL : List Char → List (List Char)
  | [] => [[]]
  | c :: cs =>
    if c = ',' then
      [] :: splitOnCommaL cs
    else
      match splitOnCommaL cs with
      | s :: ss => (c :: s) :: ss
      | [] => [[c]]

/-- JS `Array.prototype.join(sep)`: empty array gives the empty string,
and `sep` is inserted between consecutive elements. -/
def jsJoin (sep : String) : List String → String
  | [] => ""
  | [k] => k
  | k :: ks => k ++ sep ++ jsJoin sep ks

/-- Scan for the next `'>'`; on success return the characters after it.
This is the search the regex `<[^>]*>` performs after reading a `'<'`:
`[^>]*` cannot cross a `'>'`, so the match ends at the first `'>'`. -/
def findTagEnd : List Char → Option (List Char)
  | [] => none
  | c :: cs => if c = '>' then some cs else findTagEnd cs

/-- Fuel-indexed scan for `s.replace(/<[^>]*>/g, '')`: the regex engine
scans left to right; at a `'<'` it matches through the first following
`'>'` (deleting the match), otherwise the character is kept.  Every step
consumes at least one input character while spending one unit of fuel, so
starting the scan with `l.length` units of fuel never exhausts it; the
fuel only makes the recursion structural. -/
def stripTagsF : Nat → List Char → List Char
  | _, [] => []
  | 0, l => l
  | fuel + 1, c :: cs =>
    if c = '<' then
      match findTagEnd cs with
      | some rest => stripTagsF fuel rest
      | none => c :: stripTagsF fuel cs
    else c :: stripTagsF fuel cs

/-- JS `s.replace(/<[^>]*>/g, '')` on the underlying character list. -/
def stripTags (l : List Char) : List Char :=
  stripTagsF l.length l

/-- JS `a || d` for a possibly-absent string `a`: `undefined` and the empty
string are falsy, every other string is truthy. -/
def jsOr (a : Option String) (d : String) : String :=
  match a with
  | none => d
  | some s => if s = "" then d else s

/-- The `keywords` member of a JSON request body: a JSON array of strings,
a plain string, or absent. -/
inductive KeywordsField where
  | list (ks : List String)
  | str (s : String)
  | absent
deriving DecidableEq

/-- Line 158: `Array.isArray(keywords) ? keywords.join(', ') : keywords || ''`
as computed by the POST `/api/topics` handler. -/
def createKeywordStr : KeywordsField → String
  | .list ks => jsJoin ", " ks
  | .str s => if s = "" then "" else s
  | .absent => ""

/-- Line 159: `content ? content.replace(/<[^>]*>/g, '').substring(0, 200) + '...' : ''`
as computed by the POST `/api/topics` handler. -/
def createPreview : Option String → String
  | none => ""
  | some s => if s = "" then "" else String.mk ((stripTags s.data).take 200) ++ "..."

/-- Line 189: the keyword-string computation of the PUT `/api/topics/:id`
handler (full-replacement branch), transcribed from its own line. -/
def updateKeywordStr : KeywordsField → String
  | .list ks => jsJoin ", " ks
  | .str s => if s = "" then "" else s
  | .absent => ""

/-- Line 190: the preview computation of the PUT `/api/topics/:id` handler
(full-replacement branch), transcribed from its own line. -/
def updatePreview : Option String → String
  | none => ""
  | some s => if s = "" then "" else String.mk ((stripTags s.data).take 200) ++ "..."

/-- A stored row of the `topics` table.  `title`, `category` and `content`
may be written as SQL NULL / undefined (the handlers forward the raw,
possibly-absent body members); `keywords`, `preview` and `author` are
always computed strings.  `created_date` is an abstract timestamp key. -/
structure Row where
  id : Nat
  title : Option String
  category : Option String
  keywords : String
  preview : String
  content : Option String
  author : String
  created_date : Nat
  views : Nat
  helpful : Nat
deriving DecidableEq

/-- A JSON request body as the handlers destructure it. -/
structure Body where
  title : Option String
  category : Option String
  keywords : KeywordsField
  content : Option String
  author : Option String
  incrementView : Bool
  incrementHelpful : Bool
deriving DecidableEq

/-- API-facing representation of a row, produced by the row transform of
the list and single-fetch handlers (lines 110-114 and 136-140): the
keyword string is split on commas and trimmed, and a `date` member is
added (the calendar rendering is abstracted as the timestamp key). -/
structure TopicOut where
  id : Nat
  title : Option String
  category : Option String
  keywords : List String
  preview : String
  content : Option String
  author : String
  created_date : Nat
  date : Nat
  views : Nat
  helpful : Nat
deriving DecidableEq

/-- Lines 112 and 138: `topic.keywords ? topic.keywords.split(',').map(k => k.trim()) : []`. -/
def parseKeywords (s : String) : List String :=
  if s = "" then [] else (splitOnCommaL s.data).map (fun l => jsTrim (String.mk l))

/-- Row transform applied by the read handlers. -/
def rowToTopic (r : Row) : TopicOut :=
  { id := r.id, title := r.title, category := r.category,
    keywords := parseKeywords r.keywords,
    preview := r.preview, content := r.content, author := r.author,
    created_date := r.created_date, date := r.created_date,
    views := r.views, helpful := r.helpful }

/-- Errors a handler can answer with.  `notFound` is the 404
`\x7berror: 'Topic not found'\x7d` response; `dbUnavailable` is the 500
`\x7berror: 'Database not available'\x7d` response sent by the write
handlers when no pool exists. -/
inductive ApiErr where
  | notFound
  | dbUnavailable
deriving DecidableEq

/-- Does `p` occur at the head of `l`? -/
def startsWith : List Char → List Char → Bool
  | [], _ => true
  | _ :: _, [] => false
  | a :: p, b :: l => a == b && startsWith p l

/-- Does `p` occur contiguously anywhere in `l`?  Models SQL
`col LIKE '%p%'`. -/
def containsSeq : List Char → List Char → Bool
  | p, [] => startsWith p []
  | p, c :: t => startsWith p (c :: t) || containsSeq p t

/-- SQL `col LIKE '%pat%'` under the default case-insensitive collation;
NULL columns match nothing. -/
def likeMatch (pat : String) (col : Option String) : Bool :=
  match col with
  | none => false
  | some s => containsSeq (pat.data.map Char.toLower) (s.data.map Char.toLower)

/-- Line 88: `(title LIKE ? OR keywords LIKE ? OR content LIKE ?)`. -/
def likeRow (pat : String) (r : Row) : Bool :=
  likeMatch pat r.title || likeMatch pat (some r.keywords) || likeMatch pat r.content

/-- Lines 83-99: the WHERE clause assembled by the list handler.  The
search condition is added only when `search` is a truthy (nonempty)
string, the category condition only when `category` is truthy and not the
sentinel `"all"`; present conditions combine with AND. -/
def rowPasses (search category : Option String) (r : Row) : Bool :=
  (match search with
   | none => true
   | some s => if s = "" then true else likeRow s r) &&
  (match category with
   | none => true
   | some c => if c = "" ∨ c = "all" then true else r.category == some c)

/-- Insert a row into a list already sorted by `created_date` descending. -/
def insertByDate (r : Row) : List Row → List Row
  | [] => [r]
  | x :: xs =>
    if r.created_date ≥ x.created_date then r :: x :: xs else x :: insertByDate r xs

/-- Line 101: `ORDER BY created_date DESC` (insertion sort; ties keep the
storage order, which the SQL engine leaves unspecified anyway). -/
def sortByDateDesc : List Row → List Row
  | [] => []
  | r :: rs => insertByDate r (sortByDateDesc rs)

/-- GET `/api/topics` (lines 71-121).  With no pool it answers `[]`;
otherwise it filters, sorts newest-first, applies the optional `LIMIT`,
and maps the row transform.  `lim` is the parsed numeric limit, `none`
when the `limit` parameter is absent or empty (falsy). -/
def listTopics (pool : Option (List Row)) (search category : Option String)
    (lim : Option Nat) : List TopicOut :=
  match pool with
  | none => []
  | some db =>
    let filtered := db.filter (rowPasses search category)
    let sorted := sortByDateDesc filtered
    let limited := match lim with
      | none => sorted
      | some n => sorted.take n
    limited.map rowToTopic

/-- GET `/api/topics/:id` (lines 124-147).  With no pool: 404.  Otherwise
`SELECT * FROM topics WHERE id = ?`; an empty result is 404, else the
first matching row is transformed and returned. -/
def getTopic (pool : Option (List Row)) (id : Nat) : Except ApiErr TopicOut :=
  match pool with
  | none => .error .notFound
  | some db =>
    match db.filter (fun r => r.id == id) with
    | [] => .error .notFound
    | r :: _ => .ok (rowToTopic r)

/-- The row inserted by POST `/api/topics` (lines 156-164): derived
keyword string and preview, `author || 'Usuário'`, counters start at 0. -/
def newRow (newId now : Nat) (body : Body) : Row :=
  { id := newId, title := body.title, category := body.category,
    keywords := createKeywordStr body.keywords,
    preview := createPreview body.content,
    content := body.content,
    author := jsOr body.author "Usuário",
    created_date := now, views := 0, helpful := 0 }

/-- POST `/api/topics` (lines 150-171).  With no pool: 500 database not
available.  Otherwise inserts the new row (with the fresh auto-increment
id `newId` and timestamp `now`) and answers `\x7bsuccess: true, id\x7d`,
modelled as the new table contents paired with the insert id. -/
def createTopic (pool : Option (List Row)) (newId now : Nat) (body : Body) :
    Except ApiErr (List Row × Nat) :=
  match pool with
  | none => .error .dbUnavailable
  | some db => .ok (db ++ [newRow newId now body], newId)

/-- PUT `/api/topics/:id` (lines 174-203).  With no pool: 500.  Otherwise
one of three UPDATE statements runs, selected on the body flags in source
order: increment `views`, else increment `helpful`, else overwrite the six
content columns (id, created_date and the counters are not in the SET
list and survive). -/
def updateTopic (pool : Option (List Row)) (id : Nat) (body : Body) :
    Except ApiErr (List Row) :=
  match pool with
  | none => .error .dbUnavailable
  | some db =>
    if body.incrementView then
      .ok (db.map (fun r => if r.id = id then { r with views := r.views + 1 } else r))
    else if body.incrementHelpful then
      .ok (db.map (fun r => if r.id = id then { r with helpful := r.helpful + 1 } else r))
    else
      .ok (db.map (fun r =>
        if r.id = id then
          { r with
            title := body.title
            category := body.category
            keywords := updateKeywordStr body.keywords
            preview := updatePreview body.content
            content := body.content
            author := jsOr body.author "Usuário" }
        else r))

/-- DELETE `/api/topics/:id` (lines 206-218).  With no pool: 500.
Otherwise `DELETE FROM topics WHERE id = ?` and `\x7bsuccess: true\x7d`
regardless of how many rows matched. -/
def deleteTopic (pool : Option (List Row)) (id : Nat) : Except ApiErr (List Row) :=
  match pool with
  | none => .error .dbUnavailable
  | some db => .ok (db.filter (fun r => !(r.id == id)))

/-- Distinct `category` values in first-appearance order (GROUP BY keys). -/
def distinctCats : List Row → List (Option String)
  | [] => []
  | r :: rs =>
    let rest := distinctCats rs
    if r.category ∈ rest then rest else r.category :: rest

/-- Insert into a count-descending list of (category, count) pairs. -/
def insertByCount (p : Option String × Nat) :
    List (Option String × Nat) → List (Option String × Nat)
  | [] => [p]
  | x :: xs => if p.2 ≥ x.2 then p :: x :: xs else x :: insertByCount p xs

/-- Sort (category, count) pairs by count descending. -/
def sortByCountDesc : List (Option String × Nat) → List (Option String × Nat)
  | [] => []
  | p :: ps => insertByCount p (sortByCountDesc ps)

/-- GET `/api/stats/categories` (lines 221-236).  With no pool: `[]`.
Otherwise one count per distinct category, ordered by count descending
(ties in engine order). -/
def categoryStats (pool : Option (List Row)) : List (Option String × Nat) :=
  match pool with
  | none => []
  | some db =>
    sortByCountDesc ((distinctCats db).map
      (fun c => (c, db.countP (fun r => r.category == c))))

/-! Concrete sample data used by witnesses and counterexamples. -/

/-- A concrete stored row with id 1. -/
def sampleRow : Row :=
  { id := 1, title := some "T", category := some "C", keywords := "k1, k2",
    preview := "p", content := some "body text", author := "Alice",
    created_date := 5, views := 2, helpful := 3 }

/-- A request body with every member absent and both flags unset. -/
def emptyBody : Body :=
  { title := none, category := none, keywords := KeywordsField.absent,
    content := none, author := none, incrementView := false, incrementHelpful := false }

/-- The body of the spec scenario `\x7btitle:"X", content:"<b>Hi</b> there"\x7d`. -/
def scenarioBody : Body :=
  { title := some "X", category := some "C", keywords := KeywordsField.absent,
    content := some "<b>Hi</b> there", author := none,
    incrementView := false, incrementHelpful := false }

/-! ## C1 -/

/-- C1: on create and on full-replacement update, the stored preview is
the submitted content with every `<...>` tag removed, truncated to its
first 200 characters, with the ellipsis marker appended whenever the
content is a nonempty string; empty or absent content gives the empty
preview.  The spec scenario content `"<b>Hi</b> there"` yields the stored
preview `"Hi there..."`. -/
theorem preview_derivation :
    (∀ (newId now : Nat) (body : Body),
      (newRow newId now body).preview =
        match body.content with
        | none => ""
        | some s => if s = "" then "" else String.mk ((stripTags s.data).take 200) ++ "...") ∧
    (∀ (r : Row) (t cat c a : Option String) (kf : KeywordsField),
      updateTopic (some [r]) r.id ⟨t, cat, kf, c, a, false, false⟩ =
        .ok [{ r with
               title := t
               category := cat
               keywords := updateKeywordStr kf
               preview :=
                 match c with
                 | none => ""
                 | some s => if s = "" then "" else String.mk ((stripTags s.data).take 200) ++ "..."
               content := c
               author := jsOr a "Usuário" }]) ∧
    (newRow 1 0 scenarioBody).preview = "Hi there..." := by
  refine ⟨?_, ?_, ?_⟩
  · intro newId now body
    obtain ⟨t, cat, kf, c, a, iv, ih⟩ := body
    cases c <;> rfl
  · intro r t cat c a kf
    cases c <;> simp [updateTopic, updatePreview]
  · decide

/-! ## C4 -/

/-- C4: with no pool configured, the list and category-statistics reads
degrade to empty results, while create, update and delete all answer the
service-unavailable error without touching any state. -/
theorem no_pool_degradation :
    (∀ (search category : Option String) (lim : Option Nat),
      listTopics none search category lim = []) ∧
    categoryStats none = [] ∧
    (∀ (newId now : Nat) (body : Body),
      createTopic none newId now body = .error .dbUnavailable) ∧
    (∀ (id : Nat) (body : Body), updateTopic none id body = .error .dbUnavailable) ∧
    (∀ id : Nat, deleteTopic none id = .error .dbUnavailable) :=
  ⟨fun _ _ _ => rfl, rfl, fun _ _ _ => rfl, fun _ _ => rfl, fun _ => rfl⟩

/-! ## C7 -/

/-- C7: filtering with the sentinel category `"all"` produces exactly the
same response as omitting the category parameter, for every pool state,
search string and limit. -/
theorem category_all_sentinel (pool : Option (List Row)) (search : Option String)
    (lim : Option Nat) :
    listTopics pool search (some "all") lim = listTopics pool search none lim := by
  cases pool with
  | none => rfl
  | some db =>
    have hp : rowPasses search (some "all") = rowPasses search none := by
      funext r
      simp [rowPasses]
    simp only [listTopics, hp]

/-! ## C8 -/

/-- C8: the keyword-string and preview computations of the
full-replacement update branch are extensionally the same functions of
the body as those of the create handler. -/
theorem update_create_same_derivations :
    (∀ kf : KeywordsField, updateKeywordStr kf = createKeywordStr kf) ∧
    (∀ c : Option String, updatePreview c = createPreview c) := by
  constructor
  · intro kf; cases kf <;> rfl
  · intro c; cases c <;> rfl

/-! ## C10 -/

/-- C10: submitting the empty string as author stores the placeholder
`"Usuário"` exactly as an absent author does, both on create and on
full-replacement update. -/
theorem author_empty_is_placeholder :
    (∀ (newId now : Nat) (t cat c : Option String) (kf : KeywordsField),
      (newRow newId now ⟨t, cat, kf, c, some "", false, false⟩).author = "Usuário" ∧
      (newRow newId now ⟨t, cat, kf, c, none, false, false⟩).author = "Usuário") ∧
    (∀ (r : Row) (t cat c : Option String) (kf : KeywordsField),
      updateTopic (some [r]) r.id ⟨t, cat, kf, c, some "", false, false⟩ =
        .ok [{ r with
               title := t
               category := cat
               keywords := updateKeywordStr kf
               preview := updatePreview c
               content := c
               author := "Usuário" }]) := by
  constructor
  · intro newId now t cat c kf
    exact ⟨rfl, rfl⟩
  · intro r t cat c kf
    simp [updateTopic, jsOr]

/-! ## C3 -/

/-- C3 counterexample: in full-replacement mode an omitted author is not
written as empty/undefined.  Updating row 1 with a body whose members are
all absent stores the placeholder `"Usuário"` in the author column, and
that placeholder differs from the empty string. -/
theorem update_omitted_author_counterexample :
    updateTopic (some [sampleRow]) 1 emptyBody =
      .ok [{ sampleRow with
             title := none
             category := none
             keywords := ""
             preview := ""
             content := none
             author := "Usuário" }] ∧
    ("Usuário" : String) ≠ "" := by
  constructor
  · rfl
  · decide

/-- C3 (amended): every update runs exactly one of three modes, selected
on the body flags in precedence order — increment views, else increment
helpful, else replace all six content columns from the body alone with no
merge from the stored row.  The two increment modes ignore every other
body member (including, for the view mode, the helpful flag), and the
empty body in replacement mode writes title/category/content as
undefined, keywords and preview as the empty string, and author as the
placeholder `"Usuário"`. -/
theorem update_mode_dispatch (db : List Row) (id : Nat) :
    (∀ body : Body,
      updateTopic (some db) id body = .ok (db.map (fun r =>
        if r.id = id then
          if body.incrementView then { r with views := r.views + 1 }
          else if body.incrementHelpful then { r with helpful := r.helpful + 1 }
          else
            { r with
              title := body.title
              category := body.category
              keywords := updateKeywordStr body.keywords
              preview := updatePreview body.content
              content := body.content
              author := jsOr body.author "Usuário" }
        else r))) ∧
    (∀ (t cat c a t₂ cat₂ c₂ a₂ : Option String) (kf kf₂ : KeywordsField) (hf hf₂ : Bool),
      updateTopic (some db) id ⟨t, cat, kf, c, a, true, hf⟩ =
        updateTopic (some db) id ⟨t₂, cat₂, kf₂, c₂, a₂, true, hf₂⟩) ∧
    (∀ (t cat c a t₂ cat₂ c₂ a₂ : Option String) (kf kf₂ : KeywordsField),
      updateTopic (some db) id ⟨t, cat, kf, c, a, false, true⟩ =
        updateTopic (some db) id ⟨t₂, cat₂, kf₂, c₂, a₂, false, true⟩) ∧
    (updateTopic (some db) id emptyBody = .ok (db.map (fun r =>
      if r.id = id then
        { r with
          title := none
          category := none
          keywords := ""
          preview := ""
          content := none
          author := "Usuário" }
      else r))) := by
  refine ⟨?_, ?_, ?_, ?_⟩
  · intro body
    cases hv : body.incrementView <;> cases hh : body.incrementHelpful <;>
      simp [updateTopic, hv, hh]
  · intro t cat c a t₂ cat₂ c₂ a₂ kf kf₂ hf hf₂
    simp [updateTopic]
  · intro t cat c a t₂ cat₂ c₂ a₂ kf kf₂
    simp [updateTopic]
  · simp [updateTopic, emptyBody, updateKeywordStr, updatePreview, jsOr]

/-! ## C5 -/

/-- C5: single-topic fetch answers 404 when no pool is configured, 404
when no stored row carries the requested id, and the transformed matching
row when exactly one does. -/
theorem get_topic_contract (id : Nat) :
    getTopic none id = .error .notFound ∧
    (∀ db : List Row, db.filter (fun r => r.id == id) = [] →
      getTopic (some db) id = .error .notFound) ∧
    (∀ (db : List Row) (r : Row), db.filter (fun r => r.id == id) = [r] →
      getTopic (some db) id = .ok (rowToTopic r)) := by
  refine ⟨rfl, ?_, ?_⟩
  · intro db h
    simp [getTopic, h]
  · intro db r h
    simp [getTopic, h]

/-- C5 witness: in a one-row table, fetching id 1 returns the transformed
row and fetching id 99 returns 404. -/
theorem get_topic_contract_witness :
    getTopic (some [sampleRow]) 1 = .ok (rowToTopic sampleRow) ∧
    getTopic (some [sampleRow]) 99 = .error .notFound :=
  ⟨(get_topic_contract 1).2.2 [sampleRow] sampleRow (by decide),
   (get_topic_contract 99).2.1 [sampleRow] (by decide)⟩

/-! ## C9 -/

/-- Mapping a conditional row rewrite over rows none of which match the
id leaves the table unchanged. -/
theorem map_if_id_eq_self (db : List Row) (id : Nat) (f : Row → Row)
    (h : ∀ r ∈ db, r.id ≠ id) :
    db.map (fun r => if r.id = id then f r else r) = db := by
  induction db with
  | nil => rfl
  | cons r rs ih =>
    simp only [List.map_cons, if_neg (h r (List.mem_cons_self r rs))]
    rw [ih (fun x hx => h x (List.mem_cons_of_mem r hx))]

/-- C9: when no stored row carries the requested id, update (in any mode)
and delete both report success and leave the table exactly as it was. -/
theorem missing_id_silent_success (db : List Row) (id : Nat) (body : Body)
    (h : ∀ r ∈ db, r.id ≠ id) :
    updateTopic (some db) id body = .ok db ∧
    deleteTopic (some db) id = .ok db := by
  constructor
  · cases hv : body.incrementView <;> cases hh : body.incrementHelpful <;>
      simp only [updateTopic, hv, hh, Bool.false_eq_true, if_false, if_true] <;>
      exact congrArg Except.ok (map_if_id_eq_self db id _ h)
  · have : db.filter (fun r => !(r.id == id)) = db := by
      rw [List.filter_eq_self]
      intro r hr
      simpa using h r hr
    simp [deleteTopic, this]

/-- C9 witness: updating and deleting the absent id 99 in a one-row table
succeed and return the table unchanged. -/
theorem missing_id_silent_success_witness :
    updateTopic (some [sampleRow]) 99 emptyBody = .ok [sampleRow] ∧
    deleteTopic (some [sampleRow]) 99 = .ok [sampleRow] :=
  missing_id_silent_success [sampleRow] 99 emptyBody (by decide)

/-! ## C2 -/

theorem splitOnCommaL_ne_nil (l : List Char) : splitOnCommaL l ≠ [] := by
  induction l with
  | nil => simp [splitOnCommaL]
  | cons c cs ih =>
    simp only [splitOnCommaL]
    split
    · simp
    · cases h : splitOnCommaL cs with
      | nil => simp
      | cons s ss => simp

theorem splitOnCommaL_no_comma (l : List Char) (h : ',' ∉ l) :
    splitOnCommaL l = [l] := by
  induction l with
  | nil => rfl
  | cons c cs ih =>
    have hc : ¬ (c = ',') := fun hc => h (hc ▸ List.mem_cons_self c cs)
    have ht : ',' ∉ cs := fun hm => h (List.mem_cons_of_mem c hm)
    simp only [splitOnCommaL, if_neg hc, ih ht]

theorem splitOnCommaL_append (xs ys : List Char) (h : ',' ∉ xs) :
    splitOnCommaL (xs ++ ',' :: ys) = xs :: splitOnCommaL ys := by
  induction xs with
  | nil => simp [splitOnCommaL]
  | cons x xs ih =>
    have hx : ¬ (x = ',') := fun hx => h (hx ▸ List.mem_cons_self x xs)
    have ht : ',' ∉ xs := fun hm => h (List.mem_cons_of_mem x hm)
    simp only [List.cons_append, splitOnCommaL, if_neg hx]
    rw [show xs.append (',' :: ys) = xs ++ ',' :: ys from rfl, ih ht]

theorem splitOnCommaL_space_cons (l : List Char) (s : List Char) (ss : List (List Char))
    (h : splitOnCommaL l = s :: ss) :
    splitOnCommaL (spaceC :: l) = (spaceC :: s) :: ss := by
  have hs : ¬ (spaceC = ',') := by decide
  simp only [splitOnCommaL, if_neg hs, h]

theorem jsTrim_mk_space_cons (l : List Char) :
    jsTrim (String.mk (spaceC :: l)) = jsTrim (String.mk l) := by
  have hw : isJsWS spaceC = true := by decide
  simp [jsTrim, jsTrimL, hw]

/-- Joining comma-free keywords with `", "` and splitting the result on
commas recovers, after the per-segment trim, the trimmed keywords. -/
theorem split_join_trim (ks : List String) (hne : ks ≠ [])
    (hcomma : ∀ k ∈ ks, ',' ∉ k.data) :
    (splitOnCommaL ((jsJoin ", " ks).data)).map (fun l => jsTrim (String.mk l)) =
      ks.map jsTrim := by
  induction ks with
  | nil => exact absurd rfl hne
  | cons k ks ih =>
    cases ks with
    | nil =>
      rw [show jsJoin ", " [k] = k from rfl,
        splitOnCommaL_no_comma k.data (hcomma k (List.mem_cons_self k []))]
      simp
    | cons k' ks' =>
      have hjd : (jsJoin ", " (k :: k' :: ks')).data =
          k.data ++ ',' :: spaceC :: (jsJoin ", " (k' :: ks')).data := by
        rw [show jsJoin ", " (k :: k' :: ks') = k ++ ", " ++ jsJoin ", " (k' :: ks') from rfl]
        rw [String.data_append, String.data_append]
        rw [show (", " : String).data = [',', spaceC] from by decide]
        simp
      obtain ⟨s, ss, hss⟩ : ∃ s ss, splitOnCommaL ((jsJoin ", " (k' :: ks')).data) = s :: ss := by
        cases h : splitOnCommaL ((jsJoin ", " (k' :: ks')).data) with
        | nil => exact absurd h (splitOnCommaL_ne_nil _)
        | cons s ss => exact ⟨s, ss, rfl⟩
      have hk : ',' ∉ k.data := hcomma k (List.mem_cons_self k _)
      have hih := ih (by simp) (fun x hx => hcomma x (List.mem_cons_of_mem k hx))
      rw [hss] at hih
      simp only [List.map_cons, List.map_cons] at hih ⊢
      rw [hjd, splitOnCommaL_append k.data _ hk,
        splitOnCommaL_space_cons _ s ss hss]
      simp only [List.map_cons]
      rw [jsTrim_mk_space_cons s]
      have hmk : String.mk k.data = k := by cases k; rfl
      rw [hmk]
      exact congrArg (jsTrim k :: ·) hih

theorem map_jsTrim_id (l : List String) (h : ∀ k ∈ l, jsTrim k = k) :
    l.map jsTrim = l := by
  induction l with
  | nil => rfl
  | cons k ks ih =>
    simp only [List.map_cons, h k (List.mem_cons_self k ks),
      ih (fun x hx => h x (List.mem_cons_of_mem k hx))]

/-- C2 counterexample: the keyword `" a"` contains no comma, yet the
read-back list is `["a"]`, not `[" a"]` — the read-side trim removes the
leading space, so the claimed identity fails. -/
theorem keywords_roundtrip_counterexample :
    (∀ k ∈ [" a"], ',' ∉ k.data) ∧
    parseKeywords (createKeywordStr (KeywordsField.list [" a"])) ≠ [" a"] := by
  constructor
  · decide
  · decide

/-- C2 (amended): the create-side join with `", "` composed with the
read-side split-on-comma-and-trim is the identity on keyword lists in
which no keyword contains a comma, every keyword equals its own trim, and
the list is not the single empty string (that one is stored as the falsy
empty keyword string and reads back as `[]`). -/
theorem keywords_roundtrip (ks : List String)
    (hcomma : ∀ k ∈ ks, ',' ∉ k.data)
    (htrim : ∀ k ∈ ks, jsTrim k = k)
    (hone : ks ≠ [""]) :
    parseKeywords (createKeywordStr (KeywordsField.list ks)) = ks := by
  cases ks with
  | nil => rfl
  | cons k ks =>
    cases ks with
    | nil =>
      have hk : ¬ (k = "") := fun hk => hone (by rw [hk])
      show parseKeywords (jsJoin ", " [k]) = [k]
      rw [show jsJoin ", " [k] = k from rfl]
      unfold parseKeywords
      rw [if_neg hk, splitOnCommaL_no_comma k.data (hcomma k (List.mem_cons_self k []))]
      simp only [List.map_cons, List.map_nil]
      rw [show String.mk k.data = k from by cases k; rfl,
        htrim k (List.mem_cons_self k [])]
    | cons k' ks' =>
      have hjoin : ¬ (jsJoin ", " (k :: k' :: ks') = "") := by
        intro hj
        have hd : (jsJoin ", " (k :: k' :: ks')).data = [] := by rw [hj]
        rw [show jsJoin ", " (k :: k' :: ks') = k ++ ", " ++ jsJoin ", " (k' :: ks') from rfl,
          String.data_append, String.data_append,
          show (", " : String).data = [',', spaceC] from by decide] at hd
        simp at hd
      show parseKeywords (jsJoin ", " (k :: k' :: ks')) = k :: k' :: ks'
      unfold parseKeywords
      rw [if_neg hjoin, split_join_trim (k :: k' :: ks') (by simp) hcomma,
        map_jsTrim_id _ htrim]

/-- C2 witness: the comma-free, trim-invariant list `["a", "b"]`
round-trips unchanged through create and read. -/
theorem keywords_roundtrip_witness :
    ((∀ k ∈ ["a", "b"], ',' ∉ k.data) ∧ (∀ k ∈ ["a", "b"], jsTrim k = k) ∧
      ["a", "b"] ≠ [""]) ∧
    parseKeywords (createKeywordStr (KeywordsField.list ["a", "b"])) = ["a", "b"] :=
  ⟨⟨by decide, by decide, by decide⟩,
   keywords_roundtrip ["a", "b"] (by decide) (by decide) (by decide)⟩

/-! ## C6 -/

/-- The body `\x7btitle:"X", content:"Hi"\x7d`. -/
def hiBody : Body :=
  { title := some "X", category := none, keywords := KeywordsField.absent,
    content := some "Hi", author := none,
    incrementView := false, incrementHelpful := false }

/-- C6 counterexample: creating with content `"Hi"` and fetching the row
back returns the preview `"Hi..."`, and no extension of `"Hi..."` equals
the markup-stripped content `"Hi"` — the stored preview is not a prefix
of the stripped content, because of the appended ellipsis marker. -/
theorem create_get_preview_counterexample :
    getTopic (some [newRow 1 0 hiBody]) 1 = .ok (rowToTopic (newRow 1 0 hiBody)) ∧
    (rowToTopic (newRow 1 0 hiBody)).preview = "Hi..." ∧
    (∀ l : List Char, ("Hi..." : String).data ++ l ≠ stripTags ("Hi" : String).data) := by
  refine ⟨rfl, by decide, ?_⟩
  intro l h
  rw [show stripTags ("Hi" : String).data = ['H', 'i'] from by decide,
    show ("Hi..." : String).data = ['H', 'i', '.', '.', '.'] from by decide] at h
  simp at h

/-- C6 (amended): fetching a topic immediately after creating it returns
the stored title, category and author unchanged, and a preview equal to a
markup-stripped prefix of at most 200 characters of the submitted content
followed by the ellipsis marker (the empty string when content was empty
or absent). -/
theorem create_get_roundtrip (db : List Row) (newId now : Nat) (body : Body)
    (hfresh : ∀ r ∈ db, r.id ≠ newId) (db₂ : List Row)
    (hc : createTopic (some db) newId now body = .ok (db₂, newId)) :
    ∃ t : TopicOut,
      getTopic (some db₂) newId = .ok t ∧
      t.title = (newRow newId now body).title ∧
      t.category = (newRow newId now body).category ∧
      t.author = (newRow newId now body).author ∧
      ((body.content = none ∨ body.content = some "") → t.preview = "") ∧
      (∀ s : String, body.content = some s → ¬ (s = "") →
        ∃ p q : List Char, p ++ q = stripTags s.data ∧ p.length ≤ 200 ∧
          t.preview = String.mk p ++ "...") := by
  have hdb : db₂ = db ++ [newRow newId now body] := by
    simp only [createTopic, Except.ok.injEq, Prod.mk.injEq, and_true] at hc
    exact hc.symm
  subst hdb
  refine ⟨rowToTopic (newRow newId now body), ?_, rfl, rfl, rfl, ?_, ?_⟩
  · have h1 : db.filter (fun r => r.id == newId) = [] := by
      rw [List.filter_eq_nil_iff]
      intro r hr
      simpa using hfresh r hr
    have hfil : (db ++ [newRow newId now body]).filter (fun r => r.id == newId) =
        [newRow newId now body] := by
      rw [List.filter_append, h1]
      simp [newRow]
    simp [getTopic, hfil]
  · intro hcontent
    rcases hcontent with h | h <;> simp [rowToTopic, newRow, createPreview, h]
  · intro s hs hsne
    refine ⟨(stripTags s.data).take 200, (stripTags s.data).drop 200,
      List.take_append_drop _ _, ?_, ?_⟩
    · rw [List.length_take]
      exact min_le_left _ _
    · simp [rowToTopic, newRow, createPreview, hs, hsne]

/-- C6 witness: the spec scenario body, created into an empty table as id
1 and fetched back. -/
theorem create_get_roundtrip_witness :
    ∃ t : TopicOut,
      getTopic (some [newRow 1 0 scenarioBody]) 1 = .ok t ∧
      t.title = (newRow 1 0 scenarioBody).title ∧
      t.category = (newRow 1 0 scenarioBody).category ∧
      t.author = (newRow 1 0 scenarioBody).author ∧
      ((scenarioBody.content = none ∨ scenarioBody.content = some "") → t.preview = "") ∧
      (∀ s : String, scenarioBody.content = some s → ¬ (s = "") →
        ∃ p q : List Char, p ++ q = stripTags s.data ∧ p.length ≤ 200 ∧
          t.preview = String.mk p ++ "...") :=
  create_get_roundtrip [] 1 0 scenarioBody (by simp) [newRow 1 0 scenarioBody] rfl

end Binah
